import Mathlib

/-!
Shallow embedding of the OpenRelik strings worker task (`src/tasks.py`):
the `strings` Celery task runs the external `strings(1)` utility once per
(requested encoding, input file) pair, polls each child process for
progress while it runs, and aggregates the produced output files into a
task result.

External collaborators (`create_output_file`, `count_file_lines`,
`get_input_files`, `create_task_result`, Celery itself) live outside this
repository; where the claims need them they are modelled from the spec.
Subprocess behaviour is an oracle: each spawn is assigned a trace of poll
observations (line count and elapsed seconds while running, then an exit
code).
-/

namespace StringsWorker

/-- The `StringsEncoding` enum of `tasks.py` (lines 31-33). -/
inductive StringsEncoding where
  | ASCII
  | UTF16LE
deriving DecidableEq

/-- The `.value` of each `StringsEncoding` member: the `strings(1)`
encoding flag value (`ASCII = "s"`, `UTF16LE = "l"`). -/
def StringsEncoding.value : StringsEncoding → String
  | .ASCII => "s"
  | .UTF16LE => "l"

/-- The Python `.name` attribute of each `StringsEncoding` member. -/
def StringsEncoding.name : StringsEncoding → String
  | .ASCII => "ASCII"
  | .UTF16LE => "UTF16LE"

/-- `StringsEncoding.__members__` as the list of member names. -/
def StringsEncoding.members : List String := ["ASCII", "UTF16LE"]

/-- Enum lookup `StringsEncoding[n]`: `some` member when `n` is a member
name, `none` otherwise (where Python would raise `KeyError`). -/
def StringsEncoding.ofName? (n : String) : Option StringsEncoding :=
  if n = "ASCII" then some .ASCII
  else if n = "UTF16LE" then some .UTF16LE
  else none

/-- An input file dictionary as the task reads it: its `path` and
`display_name` entries. -/
structure InputFile where
  path : String
  display_name : String
deriving DecidableEq

/-- An output file handle: filesystem path plus display name. -/
structure OutputFile where
  path : String
  display_name : String
deriving DecidableEq

/-- Modelled from the spec: the file-staging collaborator
`create_output_file(output_path, display_name)` is absent from `src/`
(it lives in `openrelik_worker_common`); per the spec it allocates a
writable file in the output directory and returns a handle carrying its
filesystem path and display name. -/
def create_output_file (output_path display_name : String) : OutputFile :=
  ⟨output_path ++ "/" ++ display_name, display_name⟩

/-- Data payload of a `task-progress` event (line 126). -/
structure ProgressEvent where
  extracted_strings : Nat
  rate : Int
deriving DecidableEq

/-- One observation of the child process by the polling loop: either
`process.poll()` returned `None` (still running) together with what
`count_file_lines` and the elapsed wall-clock seconds evaluate to on
that tick, or the process has exited with the given code. -/
inductive Poll where
  | running (extracted_strings : Nat) (elapsed : ℚ)
  | exited (code : Int)
deriving DecidableEq

/-- Observable side effect of one tick of the polling loop. -/
inductive Action where
  | countLines (path : String)
  | sendEvent (name : String) (data : ProgressEvent)
  | sleep (seconds : Nat)
deriving DecidableEq

/-- Python `int(q)` on a number: truncation toward zero. -/
def pythonInt (q : ℚ) : Int := if 0 ≤ q then ⌊q⌋ else ⌈q⌉

/-- The per-tick rate (`tasks.py` lines 119-123):
`int(extracted_strings / duration.total_seconds())` when the elapsed
seconds are positive, else `0`. -/
def rate (extracted_strings : Nat) (totalSeconds : ℚ) : Int :=
  if 0 < totalSeconds then pythonInt ((extracted_strings : ℚ) / totalSeconds) else 0

/-- `update_interval_s` (`tasks.py` line 114). -/
def update_interval_s : Nat := 3

/-- The polling loop (`tasks.py` lines 116-128) over a trace of poll
observations: while `process.poll()` is `None`, count the lines of the
output file, compute the rate, emit a `task-progress` event carrying
both, and sleep for the update interval; stop at the first poll that
reports an exit code.  Returns the actions performed in order and the
exit code observed (`none` when the trace is exhausted while still
running). -/
def pollUntilExit (output_file_path : String) : List Poll → List Action × Option Int
  | [] => ([], none)
  | .exited code :: _ => ([], some code)
  | .running extracted_strings elapsed :: rest =>
      let tail := pollUntilExit output_file_path rest
      (Action.countLines output_file_path ::
        Action.sendEvent "task-progress"
          ⟨extracted_strings, rate extracted_strings elapsed⟩ ::
        Action.sleep update_interval_s :: tail.1,
       tail.2)

/-- Execution trace of one task invocation: the accumulated
`output_files` list (line 89, appended at line 129), every output file
handle created, every subprocess command spawned, and the polling-loop
actions performed. -/
structure ExecState where
  output_files : List OutputFile
  outputs_created : List OutputFile
  spawned : List (List String)
  actions : List Action
deriving DecidableEq

/-- The state at task entry: nothing created, spawned or emitted. -/
def initState : ExecState := ⟨[], [], [], []⟩

/-- The argument list built for the child process (`tasks.py` lines
101-109). -/
def strings_command (encoding_object : StringsEncoding) (path : String) : List String :=
  ["strings", "-a", "-t", "d", "--encoding", encoding_object.value, path]

/-- The output file allocated for one (input file, encoding) pair
(`tasks.py` lines 97-100): display name
`<input display name>.<encoding_name>_strings`. -/
def output_file_for (output_path encoding_name : String) (input_file : InputFile) : OutputFile :=
  create_output_file output_path (input_file.display_name ++ "." ++ encoding_name ++ "_strings")

/-- Body of the inner loop (`tasks.py` lines 95-129) for one input
file: create the output file, build the command, spawn the child
(recorded in `spawned`), run the polling loop on the given trace, then
append the output file to `output_files` (line 129).  The exit code
returned by the loop is discarded, as in the source. -/
def processFile (output_path encoding_name : String) (encoding_object : StringsEncoding)
    (input_file : InputFile) (procTrace : List Poll) (st : ExecState) : ExecState :=
  let output_file := output_file_for output_path encoding_name input_file
  let command := strings_command encoding_object input_file.path
  let poll := pollUntilExit output_file.path procTrace
  { output_files := st.output_files ++ [output_file]
    outputs_created := st.outputs_created ++ [output_file]
    spawned := st.spawned ++ [command]
    actions := st.actions ++ poll.1 }

/-- The inner `for input_file in input_files` loop for one encoding.
The subprocess oracle `behavior` assigns a poll trace to each spawn,
indexed by the number of subprocesses spawned so far. -/
def runFiles (behavior : Nat → List Poll) (output_path encoding_name : String)
    (encoding_object : StringsEncoding) (input_files : List InputFile)
    (st : ExecState) : ExecState :=
  input_files.foldl
    (fun s input_file =>
      processFile output_path encoding_name encoding_object input_file
        (behavior s.spawned.length) s) st

/-- The outer `for encoding_name, unused_encoding_enabled in
task_config.items()` loop (`tasks.py` lines 91-129).  The value bound
to each key is ignored (the source names it `unused_encoding_enabled`);
a key that is not a `StringsEncoding` member name stops the task with
the `RuntimeError` message of line 93. -/
def runConfig (behavior : Nat → List Poll) (output_path : String)
    (input_files : List InputFile) :
    List (String × Bool) → ExecState → ExecState × Option String
  | [], st => (st, none)
  | (encoding_name, _unused_encoding_enabled) :: rest, st =>
      match StringsEncoding.ofName? encoding_name with
      | none => (st, some (encoding_name ++ " is not a valid StringsEncoding name"))
      | some encoding_object =>
          runConfig behavior output_path input_files rest
            (runFiles behavior output_path encoding_name encoding_object input_files st)

/-- Modelled from the spec: `create_task_result` is absent from `src/`;
per the spec it serializes the ordered list of output descriptors, the
workflow identifier and the metadata map into the result envelope. -/
structure TaskResult where
  output_files : List OutputFile
  workflow_id : String
  meta : List (String × String)
deriving DecidableEq

/-- The `strings` task (`tasks.py` lines 67-138) over the resolved
input file list and the task configuration given as its key/value pairs
in dict iteration order.  Returns the execution trace together with
either the task result or the `RuntimeError` message raised. -/
def strings (behavior : Nat → List Poll) (input_files : List InputFile)
    (output_path workflow_id : String) (task_config : List (String × Bool)) :
    ExecState × Except String TaskResult :=
  match runConfig behavior output_path input_files task_config initState with
  | (st, some msg) => (st, .error msg)
  | (st, none) =>
      if st.output_files.isEmpty then
        (st, .error "No strings extracted from the provided files.")
      else
        (st, .ok ⟨st.output_files, workflow_id, []⟩)

/-- Output files a run over the given configuration and input files
allocates, one per (configuration key, input file) pair, the
configuration values playing no role. -/
def outputsFor (output_path : String) (task_config : List (String × Bool))
    (input_files : List InputFile) : List OutputFile :=
  task_config.flatMap (fun p => input_files.map (output_file_for output_path p.1))

/-- Commands spawned for one configuration key over the input files
(empty for a key that is not an encoding member name). -/
def commandsFor (encoding_name : String) (input_files : List InputFile) :
    List (List String) :=
  match StringsEncoding.ofName? encoding_name with
  | some encoding_object =>
      input_files.map (fun f => strings_command encoding_object f.path)
  | none => []

/-- Commands a run over the given configuration and input files spawns,
keyed only by the configuration keys. -/
def spawnsFor (task_config : List (String × Bool)) (input_files : List InputFile) :
    List (List String) :=
  task_config.flatMap (fun p => commandsFor p.1 input_files)

/-! ### Helper lemmas: loop characterizations -/

theorem StringsEncoding.mem_members_iff (n : String) :
    n ∈ StringsEncoding.members ↔ (StringsEncoding.ofName? n).isSome := by
  unfold StringsEncoding.members StringsEncoding.ofName?
  by_cases h1 : n = "ASCII" <;> by_cases h2 : n = "UTF16LE" <;> simp [h1, h2]

theorem StringsEncoding.ofName?_name {n : String} {e : StringsEncoding}
    (h : StringsEncoding.ofName? n = some e) : n = e.name := by
  unfold StringsEncoding.ofName? at h
  split_ifs at h with h1 h2
  · cases Option.some.inj h; simpa [StringsEncoding.name] using h1
  · cases Option.some.inj h; simpa [StringsEncoding.name] using h2

@[simp]
theorem processFile_output_files (output_path encoding_name : String)
    (encoding_object : StringsEncoding) (input_file : InputFile)
    (procTrace : List Poll) (st : ExecState) :
    (processFile output_path encoding_name encoding_object input_file procTrace st).output_files
      = st.output_files ++ [output_file_for output_path encoding_name input_file] := rfl

@[simp]
theorem processFile_outputs_created (output_path encoding_name : String)
    (encoding_object : StringsEncoding) (input_file : InputFile)
    (procTrace : List Poll) (st : ExecState) :
    (processFile output_path encoding_name encoding_object input_file procTrace st).outputs_created
      = st.outputs_created ++ [output_file_for output_path encoding_name input_file] := rfl

@[simp]
theorem processFile_spawned (output_path encoding_name : String)
    (encoding_object : StringsEncoding) (input_file : InputFile)
    (procTrace : List Poll) (st : ExecState) :
    (processFile output_path encoding_name encoding_object input_file procTrace st).spawned
      = st.spawned ++ [strings_command encoding_object input_file.path] := rfl

theorem runFiles_nil (behavior : Nat → List Poll) (output_path encoding_name : String)
    (encoding_object : StringsEncoding) (st : ExecState) :
    runFiles behavior output_path encoding_name encoding_object [] st = st := rfl

theorem runFiles_cons (behavior : Nat → List Poll) (output_path encoding_name : String)
    (encoding_object : StringsEncoding) (f : InputFile) (fs : List InputFile) (st : ExecState) :
    runFiles behavior output_path encoding_name encoding_object (f :: fs) st
      = runFiles behavior output_path encoding_name encoding_object fs
          (processFile output_path encoding_name encoding_object f
            (behavior st.spawned.length) st) := rfl

theorem runFiles_output_files (behavior : Nat → List Poll) (output_path encoding_name : String)
    (encoding_object : StringsEncoding) (fs : List InputFile) :
    ∀ st : ExecState,
      (runFiles behavior output_path encoding_name encoding_object fs st).output_files
        = st.output_files ++ fs.map (output_file_for output_path encoding_name) := by
  induction fs with
  | nil => intro st; simp [runFiles_nil]
  | cons f fs ih => intro st; rw [runFiles_cons, ih]; simp

theorem runFiles_outputs_created (behavior : Nat → List Poll) (output_path encoding_name : String)
    (encoding_object : StringsEncoding) (fs : List InputFile) :
    ∀ st : ExecState,
      (runFiles behavior output_path encoding_name encoding_object fs st).outputs_created
        = st.outputs_created ++ fs.map (output_file_for output_path encoding_name) := by
  induction fs with
  | nil => intro st; simp [runFiles_nil]
  | cons f fs ih => intro st; rw [runFiles_cons, ih]; simp

theorem runFiles_spawned (behavior : Nat → List Poll) (output_path encoding_name : String)
    (encoding_object : StringsEncoding) (fs : List InputFile) :
    ∀ st : ExecState,
      (runFiles behavior output_path encoding_name encoding_object fs st).spawned
        = st.spawned ++ fs.map (fun f => strings_command encoding_object f.path) := by
  induction fs with
  | nil => intro st; simp [runFiles_nil]
  | cons f fs ih => intro st; rw [runFiles_cons, ih]; simp

theorem outputsFor_nil (output_path : String) (fs : List InputFile) :
    outputsFor output_path [] fs = [] := rfl

theorem outputsFor_cons (output_path : String) (p : String × Bool)
    (rest : List (String × Bool)) (fs : List InputFile) :
    outputsFor output_path (p :: rest) fs
      = fs.map (output_file_for output_path p.1) ++ outputsFor output_path rest fs := rfl

theorem spawnsFor_nil (fs : List InputFile) : spawnsFor [] fs = [] := rfl

theorem spawnsFor_cons (p : String × Bool) (rest : List (String × Bool)) (fs : List InputFile) :
    spawnsFor (p :: rest) fs = commandsFor p.1 fs ++ spawnsFor rest fs := rfl

theorem outputsFor_length (output_path : String) (config : List (String × Bool))
    (fs : List InputFile) :
    (outputsFor output_path config fs).length = config.length * fs.length := by
  induction config with
  | nil => simp [outputsFor_nil]
  | cons p rest ih => rw [outputsFor_cons]; simp [ih, Nat.succ_mul, Nat.add_comm]

theorem runConfig_nil (behavior : Nat → List Poll) (output_path : String)
    (fs : List InputFile) (st : ExecState) :
    runConfig behavior output_path fs [] st = (st, none) := rfl

theorem runConfig_cons_invalid (behavior : Nat → List Poll) (output_path : String)
    (fs : List InputFile) {n : String} (b : Bool) (rest : List (String × Bool)) (st : ExecState)
    (h : StringsEncoding.ofName? n = none) :
    runConfig behavior output_path fs ((n, b) :: rest) st
      = (st, some (n ++ " is not a valid StringsEncoding name")) := by
  simp [runConfig, h]

theorem runConfig_cons_valid (behavior : Nat → List Poll) (output_path : String)
    (fs : List InputFile) {n : String} {e : StringsEncoding} (b : Bool)
    (rest : List (String × Bool)) (st : ExecState)
    (h : StringsEncoding.ofName? n = some e) :
    runConfig behavior output_path fs ((n, b) :: rest) st
      = runConfig behavior output_path fs rest
          (runFiles behavior output_path n e fs st) := by
  simp [runConfig, h]

theorem runConfig_valid (behavior : Nat → List Poll) (output_path : String)
    (fs : List InputFile) (config : List (String × Bool)) :
    ∀ st : ExecState, (∀ p ∈ config, (StringsEncoding.ofName? p.1).isSome) →
      (runConfig behavior output_path fs config st).2 = none ∧
      (runConfig behavior output_path fs config st).1.output_files
        = st.output_files ++ outputsFor output_path config fs ∧
      (runConfig behavior output_path fs config st).1.outputs_created
        = st.outputs_created ++ outputsFor output_path config fs ∧
      (runConfig behavior output_path fs config st).1.spawned
        = st.spawned ++ spawnsFor config fs := by
  induction config with
  | nil =>
      intro st _
      simp [runConfig_nil, outputsFor_nil, spawnsFor_nil]
  | cons p rest ih =>
      intro st hv
      obtain ⟨n, b⟩ := p
      have hn : (StringsEncoding.ofName? n).isSome := hv (n, b) (by simp)
      obtain ⟨e, he⟩ := Option.isSome_iff_exists.mp hn
      rw [runConfig_cons_valid behavior output_path fs b rest st he]
      have hrest : ∀ p ∈ rest, (StringsEncoding.ofName? p.1).isSome := by
        intro p hp; exact hv p (by simp [hp])
      obtain ⟨h1, h2, h3, h4⟩ := ih (runFiles behavior output_path n e fs st) hrest
      refine ⟨h1, ?_, ?_, ?_⟩
      · rw [h2, runFiles_output_files, outputsFor_cons, List.append_assoc]
      · rw [h3, runFiles_outputs_created, outputsFor_cons, List.append_assoc]
      · rw [h4, runFiles_spawned, spawnsFor_cons, List.append_assoc]
        have : commandsFor n fs = fs.map (fun f => strings_command e f.path) := by
          simp [commandsFor, he]
        rw [this]

theorem runConfig_invalid (behavior : Nat → List Poll) (output_path : String)
    (fs : List InputFile) {bad : String} (b : Bool) (rest : List (String × Bool))
    (hbad : StringsEncoding.ofName? bad = none) :
    ∀ (pre : List (String × Bool)) (st : ExecState),
      (∀ p ∈ pre, (StringsEncoding.ofName? p.1).isSome) →
      (runConfig behavior output_path fs (pre ++ (bad, b) :: rest) st).2
        = some (bad ++ " is not a valid StringsEncoding name") ∧
      (runConfig behavior output_path fs (pre ++ (bad, b) :: rest) st).1.spawned
        = st.spawned ++ spawnsFor pre fs ∧
      (runConfig behavior output_path fs (pre ++ (bad, b) :: rest) st).1.outputs_created
        = st.outputs_created ++ outputsFor output_path pre fs := by
  intro pre
  induction pre with
  | nil =>
      intro st _
      rw [List.nil_append, runConfig_cons_invalid behavior output_path fs b rest st hbad]
      simp [spawnsFor_nil, outputsFor_nil]
  | cons p pre ih =>
      intro st hv
      obtain ⟨n, v⟩ := p
      have hn : (StringsEncoding.ofName? n).isSome := hv (n, v) (by simp)
      obtain ⟨e, he⟩ := Option.isSome_iff_exists.mp hn
      rw [List.cons_append, runConfig_cons_valid behavior output_path fs v _ st he]
      have hpre : ∀ p ∈ pre, (StringsEncoding.ofName? p.1).isSome := by
        intro p hp; exact hv p (by simp [hp])
      obtain ⟨h1, h2, h3⟩ := ih (runFiles behavior output_path n e fs st) hpre
      refine ⟨h1, ?_, ?_⟩
      · rw [h2, runFiles_spawned, spawnsFor_cons, List.append_assoc]
        have : commandsFor n fs = fs.map (fun f => strings_command e f.path) := by
          simp [commandsFor, he]
        rw [this]
      · rw [h3, runFiles_outputs_created, outputsFor_cons, List.append_assoc]

theorem strings_of_config_error {behavior : Nat → List Poll} {fs : List InputFile}
    {output_path workflow_id : String} {config : List (String × Bool)} {msg : String}
    (h : (runConfig behavior output_path fs config initState).2 = some msg) :
    strings behavior fs output_path workflow_id config
      = ((runConfig behavior output_path fs config initState).1, Except.error msg) := by
  unfold strings
  rcases hr : runConfig behavior output_path fs config initState with ⟨st, err⟩
  rw [hr] at h
  cases err with
  | none => exact absurd h (by simp)
  | some m => cases h; rfl

theorem strings_fst (behavior : Nat → List Poll) (fs : List InputFile)
    (output_path workflow_id : String) (config : List (String × Bool)) :
    (strings behavior fs output_path workflow_id config).1
      = (runConfig behavior output_path fs config initState).1 := by
  unfold strings
  rcases hr : runConfig behavior output_path fs config initState with ⟨st, err⟩
  cases err with
  | none => by_cases h : st.output_files.isEmpty <;> simp [h]
  | some m => rfl

theorem strings_of_config_ok {behavior : Nat → List Poll} {fs : List InputFile}
    {output_path workflow_id : String} {config : List (String × Bool)}
    (h : (runConfig behavior output_path fs config initState).2 = none) :
    strings behavior fs output_path workflow_id config
      = (if (runConfig behavior output_path fs config initState).1.output_files.isEmpty then
          ((runConfig behavior output_path fs config initState).1,
            Except.error "No strings extracted from the provided files.")
        else
          ((runConfig behavior output_path fs config initState).1,
            Except.ok ⟨(runConfig behavior output_path fs config initState).1.output_files,
              workflow_id, []⟩)) := by
  unfold strings
  rcases hr : runConfig behavior output_path fs config initState with ⟨st, err⟩
  rw [hr] at h
  cases err with
  | none => rfl
  | some m => exact absurd h (by simp)


theorem outputsFor_nil_files (output_path : String) (config : List (String × Bool)) :
    outputsFor output_path config [] = [] := by
  induction config with
  | nil => rfl
  | cons p rest ih => rw [outputsFor_cons]; simp [ih]

theorem spawnsFor_length (fs : List InputFile) :
    ∀ config : List (String × Bool),
      (∀ p ∈ config, (StringsEncoding.ofName? p.1).isSome) →
      (spawnsFor config fs).length = config.length * fs.length := by
  intro config
  induction config with
  | nil => intro _; simp [spawnsFor_nil]
  | cons p rest ih =>
      intro hv
      rw [spawnsFor_cons]
      obtain ⟨e, he⟩ := Option.isSome_iff_exists.mp (hv p (by simp))
      have hc : commandsFor p.1 fs = fs.map (fun f => strings_command e f.path) := by
        simp [commandsFor, he]
      have hrest : ∀ q ∈ rest, (StringsEncoding.ofName? q.1).isSome := by
        intro q hq; exact hv q (by simp [hq])
      rw [hc]
      simp [ih hrest, Nat.succ_mul, Nat.add_comm]

theorem runConfig_keys_only (behavior : Nat → List Poll) (output_path : String)
    (fs : List InputFile) (config : List (String × Bool)) :
    ∀ st : ExecState,
      runConfig behavior output_path fs (config.map (fun p => (p.1, true))) st
        = runConfig behavior output_path fs config st := by
  induction config with
  | nil => intro st; rfl
  | cons p rest ih =>
      intro st
      obtain ⟨n, v⟩ := p
      simp only [List.map_cons]
      cases he : StringsEncoding.ofName? n with
      | none =>
          rw [runConfig_cons_invalid behavior output_path fs true _ st he,
            runConfig_cons_invalid behavior output_path fs v rest st he]
      | some e =>
          rw [runConfig_cons_valid behavior output_path fs true _ st he,
            runConfig_cons_valid behavior output_path fs v rest st he, ih]

theorem isEmpty_eq_false_of_ne_nil {α : Type} {l : List α} (h : l ≠ []) :
    l.isEmpty = false := by
  cases l with
  | nil => exact absurd rfl h
  | cons a as => rfl

/-! ### Claims -/

/-- Claim C1, counterexample: with configuration map
[ASCII ↦ true, BOGUS ↦ true] (iteration order putting the invalid
identifier second) and one input file, the task fails with the
configuration error, but a subprocess was already spawned and an output
file already created for the ASCII entry preceding it — contradicting
the claim that the failure precedes every spawn and file creation
regardless of the invalid key's position. -/
theorem C1_counterexample :
    (strings (fun _ => [Poll.exited 0]) [⟨"/in/a.bin", "a.bin"⟩] "/out" "wf"
        [("ASCII", true), ("BOGUS", true)]).2
      = Except.error "BOGUS is not a valid StringsEncoding name" ∧
    (strings (fun _ => [Poll.exited 0]) [⟨"/in/a.bin", "a.bin"⟩] "/out" "wf"
        [("ASCII", true), ("BOGUS", true)]).1.spawned ≠ [] ∧
    (strings (fun _ => [Poll.exited 0]) [⟨"/in/a.bin", "a.bin"⟩] "/out" "wf"
        [("ASCII", true), ("BOGUS", true)]).1.outputs_created ≠ [] :=
  ⟨rfl, by decide, by decide⟩

/-- Claim C1 (amended): for a configuration whose iteration order is a
prefix of valid encoding names followed by an invalid identifier, the
task fails with the configuration error naming that identifier, and
exactly one subprocess is spawned and one output file created per
(valid prefix key, input file) pair — none for the invalid identifier
or anything after it; in particular, when the invalid identifier comes
first, no subprocess is spawned and no output file is created. -/
theorem C1_amended (behavior : Nat → List Poll) (input_files : List InputFile)
    (output_path workflow_id : String) (pre : List (String × Bool)) (bad : String)
    (b : Bool) (rest : List (String × Bool))
    (hpre : ∀ p ∈ pre, p.1 ∈ StringsEncoding.members)
    (hbad : bad ∉ StringsEncoding.members) :
    (strings behavior input_files output_path workflow_id (pre ++ (bad, b) :: rest)).2
      = Except.error (bad ++ " is not a valid StringsEncoding name") ∧
    (strings behavior input_files output_path workflow_id
        (pre ++ (bad, b) :: rest)).1.spawned.length
      = pre.length * input_files.length ∧
    (strings behavior input_files output_path workflow_id
        (pre ++ (bad, b) :: rest)).1.outputs_created.length
      = pre.length * input_files.length := by
  have hpre' : ∀ p ∈ pre, (StringsEncoding.ofName? p.1).isSome := by
    intro p hp; exact (StringsEncoding.mem_members_iff p.1).mp (hpre p hp)
  have hbad' : StringsEncoding.ofName? bad = none := by
    rw [← Option.not_isSome_iff_eq_none]
    intro hs
    exact hbad ((StringsEncoding.mem_members_iff bad).mpr hs)
  obtain ⟨h1, h2, h3⟩ :=
    runConfig_invalid behavior output_path input_files b rest hbad' pre initState hpre'
  refine ⟨?_, ?_, ?_⟩
  · rw [strings_of_config_error h1]
  · rw [strings_fst, h2]
    have hi : initState.spawned = [] := rfl
    rw [hi, List.nil_append]
    exact spawnsFor_length input_files pre hpre'
  · rw [strings_fst, h3]
    have hi : initState.outputs_created = [] := rfl
    rw [hi, List.nil_append]
    exact outputsFor_length output_path pre input_files

/-- Claim C1, witness for the amended theorem at the concrete
configuration [ASCII ↦ true, BOGUS ↦ true] with one input file. -/
theorem C1_witness :
    (strings (fun _ => [Poll.exited 0]) [⟨"/in/a.bin", "a.bin"⟩] "/out" "wf"
        ([("ASCII", true)] ++ ("BOGUS", true) :: [])).2
      = Except.error ("BOGUS" ++ " is not a valid StringsEncoding name") ∧
    (strings (fun _ => [Poll.exited 0]) [⟨"/in/a.bin", "a.bin"⟩] "/out" "wf"
        ([("ASCII", true)] ++ ("BOGUS", true) :: [])).1.spawned.length
      = [("ASCII", true)].length * [(⟨"/in/a.bin", "a.bin"⟩ : InputFile)].length ∧
    (strings (fun _ => [Poll.exited 0]) [⟨"/in/a.bin", "a.bin"⟩] "/out" "wf"
        ([("ASCII", true)] ++ ("BOGUS", true) :: [])).1.outputs_created.length
      = [("ASCII", true)].length * [(⟨"/in/a.bin", "a.bin"⟩ : InputFile)].length :=
  C1_amended (fun _ => [Poll.exited 0]) [⟨"/in/a.bin", "a.bin"⟩] "/out" "wf"
    [("ASCII", true)] "BOGUS" true [] (by decide) (by decide)

/-- Claim C2, counterexample: the empty configuration map has all of
its encoding identifiers (vacuously) valid, yet with a non-empty input
file list the task does not succeed — it fails with the no-output
error — so the claim quantified over every all-valid configuration is
false. -/
theorem C2_counterexample :
    (strings (fun _ => []) [⟨"/in/a.bin", "a.bin"⟩] "/out" "wf" []).2
      = Except.error "No strings extracted from the provided files." := rfl

/-- Claim C2 (amended): for every non-empty task configuration whose
keys are all valid encoding names and every non-empty input file list
(subprocess spawning always succeeds in this model), the task succeeds
and the result's output list length equals the number of configuration
keys times the number of input files. -/
theorem C2_amended (behavior : Nat → List Poll) (input_files : List InputFile)
    (output_path workflow_id : String) (task_config : List (String × Bool))
    (hvalid : ∀ p ∈ task_config, p.1 ∈ StringsEncoding.members)
    (hconfig : task_config ≠ []) (hfiles : input_files ≠ []) :
    (strings behavior input_files output_path workflow_id task_config).2
      = Except.ok
          ⟨(strings behavior input_files output_path workflow_id task_config).1.output_files,
            workflow_id, []⟩ ∧
    (strings behavior input_files output_path workflow_id task_config).1.output_files.length
      = task_config.length * input_files.length := by
  have hv' : ∀ p ∈ task_config, (StringsEncoding.ofName? p.1).isSome := by
    intro p hp; exact (StringsEncoding.mem_members_iff p.1).mp (hvalid p hp)
  obtain ⟨h1, h2, -, -⟩ :=
    runConfig_valid behavior output_path input_files task_config initState hv'
  have hlen :
      (runConfig behavior output_path input_files task_config initState).1.output_files.length
        = task_config.length * input_files.length := by
    rw [h2]
    simp [initState, outputsFor_length]
  have hne :
      (runConfig behavior output_path input_files task_config initState).1.output_files ≠ [] := by
    intro hnil
    rw [hnil] at hlen
    simp only [List.length_nil] at hlen
    rcases Nat.mul_eq_zero.mp hlen.symm with h | h
    · exact hconfig (List.length_eq_zero.mp h)
    · exact hfiles (List.length_eq_zero.mp h)
  have hEmp := isEmpty_eq_false_of_ne_nil hne
  constructor
  · rw [strings_fst, strings_of_config_ok h1]
    simp [hEmp]
  · rw [strings_fst]
    exact hlen

/-- Claim C2, witness for the amended theorem: one valid encoding and
one input file give a successful result with exactly one output. -/
theorem C2_witness :
    (strings (fun _ => []) [⟨"/in/a.bin", "a.bin"⟩] "/out" "wf" [("ASCII", true)]).2
      = Except.ok
          ⟨(strings (fun _ => []) [⟨"/in/a.bin", "a.bin"⟩] "/out" "wf"
              [("ASCII", true)]).1.output_files, "wf", []⟩ ∧
    (strings (fun _ => []) [⟨"/in/a.bin", "a.bin"⟩] "/out" "wf"
        [("ASCII", true)]).1.output_files.length
      = ([("ASCII", true)] : List (String × Bool)).length
          * ([⟨"/in/a.bin", "a.bin"⟩] : List InputFile).length :=
  C2_amended (fun _ => []) [⟨"/in/a.bin", "a.bin"⟩] "/out" "wf" [("ASCII", true)]
    (by decide) (by decide) (by decide)

/-- Claim C3: if the accumulated output list is empty after iterating
all (encoding, file) pairs — in particular for every empty input file
list with a valid configuration — the task fails with the no-output
error rather than returning an empty result. -/
theorem C3 (behavior : Nat → List Poll) (input_files : List InputFile)
    (output_path workflow_id : String) (task_config : List (String × Bool)) :
    ((runConfig behavior output_path input_files task_config initState).2 = none →
      (runConfig behavior output_path input_files task_config initState).1.output_files = [] →
      (strings behavior input_files output_path workflow_id task_config).2
        = Except.error "No strings extracted from the provided files.") ∧
    ((∀ p ∈ task_config, p.1 ∈ StringsEncoding.members) → input_files = [] →
      (strings behavior input_files output_path workflow_id task_config).2
        = Except.error "No strings extracted from the provided files.") := by
  constructor
  · intro herr hempty
    simp [strings_of_config_ok herr, hempty]
  · intro hv hfs
    subst hfs
    have hv' : ∀ p ∈ task_config, (StringsEncoding.ofName? p.1).isSome := by
      intro p hp; exact (StringsEncoding.mem_members_iff p.1).mp (hv p hp)
    obtain ⟨h1, h2, -, -⟩ := runConfig_valid behavior output_path [] task_config initState hv'
    rw [outputsFor_nil_files, List.append_nil] at h2
    have h2' : (runConfig behavior output_path [] task_config initState).1.output_files = [] := by
      rw [h2]; rfl
    simp [strings_of_config_ok h1, h2']

/-- Claim C3, witness: a valid configuration with an empty input file
list ends in the no-output error. -/
theorem C3_witness :
    (strings (fun _ => []) [] "/out" "wf" [("ASCII", true)]).2
      = Except.error "No strings extracted from the provided files." :=
  (C3 (fun _ => []) [] "/out" "wf" [("ASCII", true)]).2 (by decide) rfl

/-- Claim C4: the reported rate equals floor(extracted / elapsed) when
the elapsed seconds are positive, and exactly 0 when the elapsed
seconds are 0 (no division-by-zero fault); in particular 150 extracted
strings over 3 seconds yield rate 50. -/
theorem C4 (extracted_strings : Nat) (totalSeconds : ℚ) :
    (0 < totalSeconds →
      rate extracted_strings totalSeconds
        = ⌊(extracted_strings : ℚ) / totalSeconds⌋) ∧
    (totalSeconds = 0 → rate extracted_strings totalSeconds = 0) ∧
    rate 150 3 = 50 := by
  refine ⟨?_, ?_, ?_⟩
  · intro h
    have hq : (0 : ℚ) ≤ (extracted_strings : ℚ) / totalSeconds :=
      div_nonneg (Nat.cast_nonneg extracted_strings) (le_of_lt h)
    simp [rate, pythonInt, h, hq]
  · intro h
    simp [rate, h]
  · norm_num [rate, pythonInt]

/-- Claim C4, witness: at 150 extracted strings over 3 elapsed seconds
the rate is the floor of their quotient, and at 0 elapsed seconds the
rate is 0. -/
theorem C4_witness :
    rate 150 3 = ⌊((150 : Nat) : ℚ) / 3⌋ ∧ rate 7 0 = 0 :=
  ⟨(C4 150 3).1 (by norm_num), (C4 7 0).2.1 rfl⟩

/-- Claim C5: the output file allocated for each (input file, encoding)
pair has display name `<input display name>.<encoding member
name>_strings`; e.g. input "sample.bin" with encoding ASCII yields
"sample.bin.ASCII_strings". -/
theorem C5 (output_path encoding_name : String) (encoding_object : StringsEncoding)
    (input_file : InputFile) (procTrace : List Poll) (st : ExecState)
    (h : StringsEncoding.ofName? encoding_name = some encoding_object) :
    (processFile output_path encoding_name encoding_object input_file procTrace st).outputs_created
      = st.outputs_created ++
        [create_output_file output_path
          (input_file.display_name ++ "." ++ encoding_object.name ++ "_strings")] ∧
    (output_file_for "/out" "ASCII" ⟨"/in/sample.bin", "sample.bin"⟩).display_name
      = "sample.bin.ASCII_strings" := by
  constructor
  · rw [← StringsEncoding.ofName?_name h]
    rfl
  · rfl

/-- Claim C5, witness at input "sample.bin" and encoding ASCII. -/
theorem C5_witness :
    (processFile "/out" "ASCII" StringsEncoding.ASCII ⟨"/in/sample.bin", "sample.bin"⟩ []
        initState).outputs_created
      = initState.outputs_created ++
        [create_output_file "/out"
          ("sample.bin" ++ "." ++ StringsEncoding.ASCII.name ++ "_strings")] ∧
    (output_file_for "/out" "ASCII" ⟨"/in/sample.bin", "sample.bin"⟩).display_name
      = "sample.bin.ASCII_strings" :=
  C5 "/out" "ASCII" StringsEncoding.ASCII ⟨"/in/sample.bin", "sample.bin"⟩ [] initState rfl

/-- Claim C6: the argument list built for the child process is exactly
the extraction utility "strings", the all-sections flag "-a", the
decimal byte-offset flag "-t" "d", the explicit "--encoding" flag with
the mapped single-character value (ASCII ↦ "s", UTF16LE ↦ "l"), and
finally the input path, in that order. -/
theorem C6 (encoding_object : StringsEncoding) (path output_path encoding_name : String)
    (input_file : InputFile) (procTrace : List Poll) (st : ExecState) :
    strings_command encoding_object path
      = ["strings", "-a", "-t", "d", "--encoding", encoding_object.value, path] ∧
    (processFile output_path encoding_name encoding_object input_file procTrace st).spawned
      = st.spawned ++ [strings_command encoding_object input_file.path] ∧
    StringsEncoding.ASCII.value = "s" ∧ StringsEncoding.UTF16LE.value = "l" :=
  ⟨rfl, rfl, rfl, rfl⟩

/-- Claim C7: for every (encoding, input file) pair whose subprocess
was spawned, the output file handle is appended to the accumulated
output list whatever the poll trace — in particular whatever exit code
the subprocess reports; a non-zero exit code is not distinguished from
success. -/
theorem C7 (output_path encoding_name : String) (encoding_object : StringsEncoding)
    (input_file : InputFile) (procTrace : List Poll) (st : ExecState) :
    (processFile output_path encoding_name encoding_object input_file procTrace st).output_files
      = st.output_files ++ [output_file_for output_path encoding_name input_file] ∧
    ∀ code : Int,
      (processFile output_path encoding_name encoding_object input_file
          (procTrace ++ [Poll.exited code]) st).output_files
        = st.output_files ++ [output_file_for output_path encoding_name input_file] :=
  ⟨rfl, fun _ => rfl⟩

/-- Claim C8, counterexample: a configuration whose ASCII key carries
the value false (not truthy) still runs the ASCII encoding — its
subprocess is spawned — so presence AND truthiness of the key is not
what enables an encoding; presence alone does. -/
theorem C8_counterexample :
    (strings (fun _ => [Poll.exited 0]) [⟨"/in/a.bin", "a.bin"⟩] "/out" "wf"
        [("ASCII", false)]).1.spawned
      = [["strings", "-a", "-t", "d", "--encoding", "s", "/in/a.bin"]] := by
  decide

/-- Claim C8 (amended): an encoding is run iff a key named by that
encoding member is present in the configuration map; the value of the
key is ignored, so the whole execution is unchanged when every value is
replaced by true, and under an all-valid configuration the spawned
command list is exactly one command per (configuration key, input file)
pair, determined by the keys alone. -/
theorem C8_amended (behavior : Nat → List Poll) (input_files : List InputFile)
    (output_path workflow_id : String) (task_config : List (String × Bool))
    (hvalid : ∀ p ∈ task_config, p.1 ∈ StringsEncoding.members) :
    (strings behavior input_files output_path workflow_id task_config).1.spawned
      = spawnsFor task_config input_files ∧
    strings behavior input_files output_path workflow_id task_config
      = strings behavior input_files output_path workflow_id
          (task_config.map (fun p => (p.1, true))) := by
  have hv' : ∀ p ∈ task_config, (StringsEncoding.ofName? p.1).isSome := by
    intro p hp; exact (StringsEncoding.mem_members_iff p.1).mp (hvalid p hp)
  obtain ⟨-, -, -, h4⟩ :=
    runConfig_valid behavior output_path input_files task_config initState hv'
  constructor
  · rw [strings_fst, h4]
    have hi : initState.spawned = [] := rfl
    rw [hi, List.nil_append]
  · unfold strings
    rw [runConfig_keys_only behavior output_path input_files task_config initState]

/-- Claim C8, witness: a two-key configuration with a falsy UTF16LE
value spawns exactly the commands determined by its keys, and behaves
identically to the same configuration with both values true. -/
theorem C8_witness :
    (strings (fun _ => [Poll.exited 1]) [⟨"/in/a.bin", "a.bin"⟩] "/out" "wf"
        [("UTF16LE", false), ("ASCII", true)]).1.spawned
      = spawnsFor [("UTF16LE", false), ("ASCII", true)] [⟨"/in/a.bin", "a.bin"⟩] ∧
    strings (fun _ => [Poll.exited 1]) [⟨"/in/a.bin", "a.bin"⟩] "/out" "wf"
        [("UTF16LE", false), ("ASCII", true)]
      = strings (fun _ => [Poll.exited 1]) [⟨"/in/a.bin", "a.bin"⟩] "/out" "wf"
          ([("UTF16LE", false), ("ASCII", true)].map (fun p => (p.1, true))) :=
  C8_amended (fun _ => [Poll.exited 1]) [⟨"/in/a.bin", "a.bin"⟩] "/out" "wf"
    [("UTF16LE", false), ("ASCII", true)] (by decide)

/-- Claim C9: while the process polls as running, each tick counts the
lines of the output file, emits a "task-progress" event carrying the
extracted-string count and the rate, then sleeps for the update
interval (3 seconds); the loop exits at the first poll reporting an
exit — whatever the exit code, which it returns uninterpreted — and
never reads past it. -/
theorem C9 (output_file_path : String) (ticks : List (Nat × ℚ)) (code : Int)
    (rest : List Poll) :
    pollUntilExit output_file_path
        (ticks.map (fun t => Poll.running t.1 t.2) ++ Poll.exited code :: rest)
      = (ticks.flatMap (fun t =>
            [Action.countLines output_file_path,
             Action.sendEvent "task-progress" ⟨t.1, rate t.1 t.2⟩,
             Action.sleep update_interval_s]),
         some code) ∧
    update_interval_s = 3 := by
  constructor
  · induction ticks with
    | nil => rfl
    | cons t ts ih =>
        simp only [List.map_cons, List.cons_append, pollUntilExit, List.flatMap_cons,
          List.append_eq, List.nil_append, ih]
  · rfl

/-- Claim C10: with an empty task configuration map the task spawns no
subprocess, creates no output file, and fails with the no-output error,
even when the input file list is non-empty. -/
theorem C10 (behavior : Nat → List Poll) (input_files : List InputFile)
    (output_path workflow_id : String) :
    strings behavior input_files output_path workflow_id []
      = (initState, Except.error "No strings extracted from the provided files.") ∧
    (strings behavior input_files output_path workflow_id []).1.spawned = [] ∧
    (strings behavior input_files output_path workflow_id []).1.outputs_created = [] :=
  ⟨rfl, rfl, rfl⟩


end StringsWorker
